import Mathlib

/-!
# Verification of the retrieval core of `rag-charity-chatbot`

A shallow embedding of the retrieval core of the repository:

* `src/src/embeddings/chunking.py` — `TokenCounter`, `DocumentChunker`
  (fixed-size and paragraph strategies);
* `src/src/embeddings/embedding_generator.py` — `EmbeddingGenerator.cosine_similarity`;
* `src/src/vector_db/chromadb_handler.py` — `ChromaVectorDB.search`;
* `src/src/retrieval/retriever.py` — `SemanticRetriever.retrieve`, `ContextBuilder`.

Python strings are Lean `String`s; Python string primitives used by the code
(`str.split()`, `str.split(sep)`, `str.strip()`, `str.lower()`, `str.replace`,
`sep.join(...)`) are embedded character-by-character so that they compute by
structural recursion.  Python numbers are embedded as `Nat`/`Int` (counts and
indices) and `ℚ` (the float arithmetic `x / 0.75`, `x * 0.75`, similarity
scores); `int(x)` on a nonnegative float is `Int.floor`/`toNat`, and float
floor-division `// 0.75` is likewise an exact floor.  The external
collaborators (the sentence-transformer model and the chromadb client) enter
as explicit oracle functions: an embedding function returning
`Except String (List ℚ)` and a chroma client whose `query` returns
`Except String (List QueryItem)`; a raised Python exception is an
`Except.error`, which is the only effect the code observes of them.
-/

namespace RagCore

/-! ## Python string primitives -/

/-- Accumulator-style whitespace splitter: Python `str.split()` with no
separator — splits on runs of whitespace and never yields empty words.
`acc` holds the characters of the word in progress, reversed. -/
def splitWordsAux : List Char → List Char → List (List Char)
  | [], acc => if acc.isEmpty then [] else [acc.reverse]
  | c :: cs, acc =>
    if c.isWhitespace then
      if acc.isEmpty then splitWordsAux cs []
      else acc.reverse :: splitWordsAux cs []
    else splitWordsAux cs (c :: acc)

/-- Python `text.split()` (no separator argument). -/
def pySplit (s : String) : List String :=
  (splitWordsAux s.data []).map fun w => ⟨w⟩

/-- Python `sep.join(xs)`. -/
def joinStr (sep : String) (xs : List String) : String :=
  ⟨List.intercalate sep.data (xs.map String.data)⟩

/-- Python `' '.join(xs)`, as used by `_chunk_fixed_size`. -/
def joinWords (xs : List String) : String :=
  joinStr " " xs

/-- Accumulator-style splitter on the two-character separator `"\n\n"`:
Python `text.split('\n\n')` (empty pieces are kept, as in Python). -/
def splitParasAux : List Char → List Char → List (List Char)
  | [], acc => [acc.reverse]
  | '\n' :: '\n' :: cs, acc => acc.reverse :: splitParasAux cs []
  | c :: cs, acc => splitParasAux cs (c :: acc)

/-- Python `text.split('\n\n')`, as used by `_chunk_paragraph`. -/
def pySplitParas (s : String) : List String :=
  (splitParasAux s.data []).map fun w => ⟨w⟩

/-- Python `s.strip()`: remove leading and trailing whitespace. -/
def pyStrip (s : String) : String :=
  ⟨((s.data.dropWhile Char.isWhitespace).reverse.dropWhile Char.isWhitespace).reverse⟩

/-- Python `s.lower()` (ASCII case folding, as applied to charity names). -/
def pyLower (s : String) : String :=
  ⟨s.data.map Char.toLower⟩

/-- Python `s.replace(" ", "_")`: the single-character replacement used to
normalize collection names. -/
def pyReplaceSpace (s : String) : String :=
  ⟨s.data.map fun c => if c = ' ' then '_' else c⟩

/-- `charity_name.lower().replace(" ", "_")` from `SemanticRetriever.retrieve`. -/
def normalizeCollectionName (s : String) : String :=
  pyReplaceSpace (pyLower s)

/-- Python `top_k or self.config.top_k`: `or` falls through to the default
both when the argument is `None` and when it is the falsy integer `0`. -/
def pyOr (o : Option Nat) (d : Nat) : Nat :=
  match o with
  | some n => if n = 0 then d else n
  | none => d

/-! ## Token counting (`src/src/embeddings/chunking.py`, `TokenCounter`) -/

namespace TokenCounter

/-- `TokenCounter.estimate_tokens`: `words = len(text.split())` then
`max(1, int(words / 0.75))`.  `int()` truncates the nonnegative float
`words / 0.75`, i.e. takes its floor. -/
def estimate_tokens (text : String) : Nat :=
  max 1 ((Int.floor (((pySplit text).length : ℚ) / 0.75)).toNat)

/-- `TokenCounter.count_tokens_in_chunk` just delegates to `estimate_tokens`. -/
def count_tokens_in_chunk (text : String) : Nat :=
  estimate_tokens text

end TokenCounter

/-! ### Exact values of the float expressions

The code divides and multiplies word counts by the float `0.75 = 3/4`, then
truncates with `int()` (or floor-divides with `//`).  These are exactly the
natural-number divisions below. -/

lemma toNat_floor_div_075 (w : ℕ) : (Int.floor ((w : ℚ) / 0.75)).toNat = 4 * w / 3 := by
  have h : ((w : ℚ) / 0.75) = ((4 * w : ℕ) : ℚ) / ((3 : ℕ) : ℚ) := by
    push_cast
    norm_num
    ring
  rw [h, Int.floor_toNat, Nat.floor_div_nat, Nat.floor_natCast]

lemma toNat_floor_mul_075 (w : ℕ) : (Int.floor ((w : ℚ) * 0.75)).toNat = 3 * w / 4 := by
  have h : ((w : ℚ) * 0.75) = ((3 * w : ℕ) : ℚ) / ((4 : ℕ) : ℚ) := by
    push_cast
    norm_num
    ring
  rw [h, Int.floor_toNat, Nat.floor_div_nat, Nat.floor_natCast]

lemma estimate_tokens_eq (text : String) :
    TokenCounter.estimate_tokens text = max 1 (4 * (pySplit text).length / 3) := by
  rw [TokenCounter.estimate_tokens, toNat_floor_div_075]

/-! ## Document chunking (`src/src/embeddings/chunking.py`, `DocumentChunker`) -/

/-- Chunk metadata: a Python dict from string keys to string values. -/
abbrev Metadata : Type := List (String × String)

/-- `ChunkConfig` from `chunking.py`; the source defaults are
`chunk_size=512, overlap=50, strategy="semantic", min_chunk_size=100`. -/
structure ChunkConfig where
  chunk_size : Nat := 512
  overlap : Nat := 50
  strategy : String := "semantic"
  min_chunk_size : Nat := 100
deriving DecidableEq

/-- A chunk dict produced by `DocumentChunker`.  The fixed-size strategy also
stores `start_idx`/`end_idx`; the paragraph strategy's accumulated chunks do
not, which the embedding records as `none`. -/
structure Chunk where
  id : String
  text : String
  startIdx : Option Nat := none
  endIdx : Option Nat := none
  token_count : Nat
  metadata : Metadata
deriving DecidableEq

namespace DocumentChunker

/-- `words_per_chunk = int(self.config.chunk_size * 0.75)`. -/
def wordsPerChunk (cfg : ChunkConfig) : Nat :=
  (Int.floor ((cfg.chunk_size : ℚ) * 0.75)).toNat

/-- `overlap_words = int(self.config.overlap * 0.75)`. -/
def overlapWords (cfg : ChunkConfig) : Nat :=
  (Int.floor ((cfg.overlap : ℚ) * 0.75)).toNat

lemma wordsPerChunk_eq (cfg : ChunkConfig) : wordsPerChunk cfg = 3 * cfg.chunk_size / 4 := by
  rw [wordsPerChunk, toNat_floor_mul_075]

lemma overlapWords_eq (cfg : ChunkConfig) : overlapWords cfg = 3 * cfg.overlap / 4 := by
  rw [overlapWords, toNat_floor_mul_075]

/-- `start_idx = max(next_start_idx, start_idx + 1)` — the loop's advance step.
`next_start_idx = end_idx - overlap_words` is a Python `int` and can be
negative, hence the `Int` argument. -/
def nextStartIdx (start : Nat) (nextStart : Int) : Nat :=
  (max nextStart ((start : Int) + 1)).toNat

lemma succ_le_nextStartIdx (start : Nat) (nextStart : Int) :
    start + 1 ≤ nextStartIdx start nextStart := by
  have h : ((start : Int) + 1) ≤ max nextStart ((start : Int) + 1) := le_max_right _ _
  have h2 : (((start + 1 : Nat) : Int)).toNat ≤ (max nextStart ((start : Int) + 1)).toNat := by
    apply Int.toNat_le_toNat
    exact_mod_cast h
  simpa using h2

/-- The `while start_idx < len(words):` loop of `DocumentChunker._chunk_fixed_size`,
already operating on `words = text.split()`. -/
def chunkFixedLoop (cfg : ChunkConfig) (meta : Metadata) (words : List String)
    (start chunkId : Nat) : List Chunk :=
  if h : start < words.length then
    let endIdx := min (start + wordsPerChunk cfg) words.length
    let chunkText := joinWords (List.take (endIdx - start) (List.drop start words))
    let tokens := TokenCounter.count_tokens_in_chunk chunkText
    let keep := cfg.min_chunk_size ≤ tokens
    let nextStart : Int := (endIdx : Int) - (overlapWords cfg : Int)
    let c : Chunk :=
      { id := "chunk_" ++ toString chunkId, text := chunkText, startIdx := some start,
        endIdx := some endIdx, token_count := tokens, metadata := meta }
    let rest : List Chunk :=
      if (start : Int) ≤ nextStart ∧ endIdx = words.length then []
      else chunkFixedLoop cfg meta words (nextStartIdx start nextStart)
        (if keep then chunkId + 1 else chunkId)
    if keep then c :: rest else rest
  else []
termination_by words.length - start
decreasing_by
  have := succ_le_nextStartIdx start
    ((((start + wordsPerChunk cfg) ⊓ words.length : ℕ) : ℤ) - (overlapWords cfg : ℤ))
  omega

/-- `DocumentChunker._chunk_fixed_size`. -/
def chunk_fixed_size (cfg : ChunkConfig) (text : String) (meta : Metadata) : List Chunk :=
  chunkFixedLoop cfg meta (pySplit text) 0 0

/-- The id-splicing loop of `_chunk_paragraph`:
`for sub_chunk in sub_chunks: sub_chunk['id'] = f"chunk_{chunk_id}"; chunk_id += 1`.
Returns the renumbered chunks and the final `chunk_id`. -/
def renumber : List Chunk → Nat → List Chunk × Nat
  | [], i => ([], i)
  | c :: cs, i =>
    let r := renumber cs (i + 1)
    ({ c with id := "chunk_" ++ toString i } :: r.1, r.2)

/-- The `for para in paragraphs:` loop of `DocumentChunker._chunk_paragraph`,
carrying `current_chunk`, `current_tokens` and `chunk_id`, followed by the
final flush of the remaining chunk. -/
def chunkParagraphLoop (cfg : ChunkConfig) (meta : Metadata) :
    List String → List String → Nat → Nat → List Chunk
  | [], currentChunk, currentTokens, chunkId =>
    if currentChunk.isEmpty then []
    else [{ id := "chunk_" ++ toString chunkId, text := joinStr "\n\n" currentChunk,
            token_count := currentTokens, metadata := meta }]
  | para :: rest, currentChunk, currentTokens, chunkId =>
    let p := pyStrip para
    if p = "" then chunkParagraphLoop cfg meta rest currentChunk currentTokens chunkId
    else
      let paraTokens := TokenCounter.count_tokens_in_chunk p
      if cfg.chunk_size < paraTokens then
        let flushed : List Chunk :=
          if currentChunk.isEmpty then []
          else [{ id := "chunk_" ++ toString chunkId, text := joinStr "\n\n" currentChunk,
                  token_count := currentTokens, metadata := meta }]
        let nextId := if currentChunk.isEmpty then chunkId else chunkId + 1
        let sub := renumber (chunk_fixed_size cfg p meta) nextId
        flushed ++ sub.1 ++ chunkParagraphLoop cfg meta rest [] 0 sub.2
      else if currentTokens + paraTokens ≤ cfg.chunk_size then
        chunkParagraphLoop cfg meta rest (currentChunk ++ [p]) (currentTokens + paraTokens) chunkId
      else
        let flushed : List Chunk :=
          if currentChunk.isEmpty then []
          else [{ id := "chunk_" ++ toString chunkId, text := joinStr "\n\n" currentChunk,
                  token_count := currentTokens, metadata := meta }]
        let nextId := if currentChunk.isEmpty then chunkId else chunkId + 1
        flushed ++ chunkParagraphLoop cfg meta rest [p] paraTokens nextId

/-- `DocumentChunker._chunk_paragraph`. -/
def chunk_paragraph (cfg : ChunkConfig) (text : String) (meta : Metadata) : List Chunk :=
  chunkParagraphLoop cfg meta (pySplitParas text) [] 0 0

end DocumentChunker

/-! ## Embedding generator (`src/src/embeddings/embedding_generator.py`) -/

namespace EmbeddingGenerator

/-- `np.dot(vec1, vec2)` on 1-D vectors. -/
def dotProduct (v1 v2 : List ℚ) : ℚ :=
  (List.zipWith (fun a b => a * b) v1 v2).sum

/-- The squared Euclidean norm.  `np.linalg.norm(v)` is `sqrtFn (normSq v)`
for a square-root function `sqrtFn`; since the real square root is not
rational, `cosine_similarity` below is parametrised by `sqrtFn`, constrained
in the theorems by the property that on nonnegative inputs it vanishes
exactly at `0` — which the real square root satisfies. -/
def normSq (v : List ℚ) : ℚ :=
  (v.map fun x => x * x).sum

/-- `EmbeddingGenerator.cosine_similarity`: guard `norm_a == 0 or norm_b == 0`
returning `0.0`, else `dot_product / (norm_a * norm_b)`. -/
def cosine_similarity (sqrtFn : ℚ → ℚ) (vec1 vec2 : List ℚ) : ℚ :=
  let norm_a := sqrtFn (normSq vec1)
  let norm_b := sqrtFn (normSq vec2)
  if norm_a = 0 ∨ norm_b = 0 then 0
  else dotProduct vec1 vec2 / (norm_a * norm_b)

lemma normSq_nonneg (v : List ℚ) : 0 ≤ normSq v := by
  apply List.sum_nonneg
  intro x hx
  rcases List.mem_map.mp hx with ⟨y, _, rfl⟩
  exact mul_self_nonneg y

end EmbeddingGenerator

/-! ## Vector DB (`src/src/vector_db/chromadb_handler.py`) -/

/-- One `(document, metadata, distance)` triple as returned by the chroma
client's `collection.query`. -/
structure QueryItem where
  doc : String
  meta : Metadata
  distance : ℚ
deriving DecidableEq

/-- One formatted search result: the dict
`{'rank': i+1, 'text': doc, 'similarity': 1 - distance, 'metadata': meta}`. -/
structure SearchResult where
  rank : Nat
  text : String
  similarity : ℚ
  metadata : Metadata
deriving DecidableEq

/-- `ChromaVectorDB` state plus the external chroma client as oracles:
`collection` is the currently selected collection (`self.collection`,
`none` when unset), `queryRes` is the client's `collection.query`
(arguments: query embedding, `n_results`, where-filter on `charity_name`),
and `existing` tells whether `client.get_collection(name)` succeeds. -/
structure ChromaVectorDB where
  collection : Option String
  queryRes : List ℚ → Nat → Option String → Except String (List QueryItem)
  existing : String → Bool

namespace ChromaVectorDB

/-- The `for i, (doc, meta, distance) in enumerate(zip(...))` formatting loop
of `ChromaVectorDB.search`: similarity is `1 - distance`, and the item is
kept only `if similarity >= threshold`. -/
def formatLoop (threshold : ℚ) : Nat → List QueryItem → List SearchResult
  | _, [] => []
  | i, it :: rest =>
    let similarity := 1 - it.distance
    if threshold ≤ similarity then
      { rank := i + 1, text := it.doc, similarity := similarity, metadata := it.meta }
        :: formatLoop threshold (i + 1) rest
    else formatLoop threshold (i + 1) rest

/-- The `where` filter of `ChromaVectorDB.search`: `{'charity_name': name}`
when `name` is truthy, else `None`. -/
def whereFilterOf (name : Option String) : Option String :=
  match name with
  | some n => if n = "" then none else some n
  | none => none

/-- `ChromaVectorDB.search`: returns `[]` when no collection is selected,
builds the `where` filter from a truthy `name`, converts a client exception
to `[]`, and otherwise formats and threshold-filters the query results. -/
def search (db : ChromaVectorDB) (query_embedding : List ℚ) (n_results : Nat)
    (name : Option String) (threshold : ℚ) : List SearchResult :=
  match db.collection with
  | none => []
  | some _ =>
    match db.queryRes query_embedding n_results (whereFilterOf name) with
    | .error _ => []
    | .ok items => formatLoop threshold 0 items

end ChromaVectorDB

/-! ## Semantic retriever (`src/src/retrieval/retriever.py`) -/

/-- `RetrievalConfig`, with the source defaults. -/
structure RetrievalConfig where
  top_k : Nat := 5
  similarity_threshold : ℚ := 0.3
  rerank : Bool := true
  include_metadata : Bool := true
  debug : Bool := true

namespace SemanticRetriever

/-- `SemanticRetriever._rerank_results`: a stable sort by descending
similarity (Python `sorted(..., key=lambda x: x['similarity'], reverse=True)`). -/
def rerank_results (results : List SearchResult) : List SearchResult :=
  results.mergeSort fun a b => decide (b.similarity ≤ a.similarity)

/-- Collection resolution in `retrieve`: when `charity_name` is truthy, try
`get_collection` on the normalized name; Python's bare `except` turns a
failure into an early `return []`, which this encoding signals with `none`.
On success `self.collection` is rebound to the named collection. -/
def resolveCollection (db : ChromaVectorDB) (charityName : Option String) :
    Option ChromaVectorDB :=
  match charityName with
  | none => some db
  | some s =>
    if s = "" then some db
    else
      let name := normalizeCollectionName s
      if db.existing name then some { db with collection := some name } else none

/-- The body of the `try:` block of `SemanticRetriever.retrieve`:
embed the query (`er` is the embedding model, an exception propagates),
resolve the collection (missing collection returns `[]` normally),
over-fetch `k * 2` from the index with `threshold=0.0`, filter by the
configured similarity threshold, optionally rerank, and truncate to `k`. -/
def retrieveTry (er : String → Except String (List ℚ)) (db : ChromaVectorDB)
    (cfg : RetrievalConfig) (query : String) (charityName : Option String)
    (topK : Option Nat) : Except String (List SearchResult) :=
  match er query with
  | .error e => .error e
  | .ok query_embedding =>
    let k := pyOr topK cfg.top_k
    match resolveCollection db charityName with
    | none => .ok []
    | some db1 =>
      let results := db1.search query_embedding (k * 2) charityName 0
      let filtered := results.filter fun r => decide (cfg.similarity_threshold ≤ r.similarity)
      let reranked :=
        if cfg.rerank ∧ 1 < filtered.length then rerank_results filtered else filtered
      .ok (reranked.take k)

/-- `SemanticRetriever.retrieve`: the `except Exception` handler converts any
exception escaping the `try:` block into `[]`. -/
def retrieve (er : String → Except String (List ℚ)) (db : ChromaVectorDB)
    (cfg : RetrievalConfig) (query : String) (charityName : Option String)
    (topK : Option Nat) : List SearchResult :=
  match retrieveTry er db cfg query charityName topK with
  | .ok l => l
  | .error _ => []

/-- The candidate set of `retrieve` after the similarity-threshold filter and
before rerank/truncation (empty on an embedding exception or a missing
collection, mirroring `retrieve`). -/
def retrieveFiltered (er : String → Except String (List ℚ)) (db : ChromaVectorDB)
    (cfg : RetrievalConfig) (query : String) (charityName : Option String)
    (topK : Option Nat) : List SearchResult :=
  match er query with
  | .error _ => []
  | .ok query_embedding =>
    let k := pyOr topK cfg.top_k
    match resolveCollection db charityName with
    | none => []
    | some db1 =>
      (db1.search query_embedding (k * 2) charityName 0).filter
        fun r => decide (cfg.similarity_threshold ≤ r.similarity)

end SemanticRetriever

/-! ## Context builder (`src/src/retrieval/retriever.py`, `ContextBuilder`) -/

namespace ContextBuilder

/-- `chunk_tokens = len(chunk_text.split()) // 0.75` — float floor-division. -/
def ctxTokens (text : String) : Nat :=
  (Int.floor (((pySplit text).length : ℚ) / 0.75)).toNat

lemma ctxTokens_eq (text : String) : ctxTokens text = 4 * (pySplit text).length / 3 := by
  rw [ctxTokens, toNat_floor_div_075]

/-- Formatting of one included chunk: with sources,
`f"{chunk_text}\n[Source: {metadata.get('charity_name', 'Unknown')}]\n"`. -/
def formatChunk (include_sources : Bool) (c : SearchResult) : String :=
  if include_sources then
    c.text ++ "\n" ++ "[Source: " ++
      (match c.metadata.find? (fun p => p.1 == "charity_name") with
       | some p => p.2
       | none => "Unknown") ++ "]" ++ "\n"
  else c.text ++ "\n"

/-- The `for i, chunk in enumerate(chunks):` loop of
`ContextBuilder.build_context`, carrying `token_count`; returns the collected
`context_parts` together with the final `token_count`.  The loop `break`s as
soon as `token_count + chunk_tokens > max_tokens`. -/
def buildLoop (include_sources : Bool) (max_tokens : Nat) :
    List SearchResult → Nat → List String × Nat
  | [], tokenCount => ([], tokenCount)
  | c :: rest, tokenCount =>
    let chunkTokens := ctxTokens c.text
    if max_tokens < tokenCount + chunkTokens then ([], tokenCount)
    else
      let r := buildLoop include_sources max_tokens rest (tokenCount + chunkTokens)
      (formatChunk include_sources c :: r.1, r.2)

/-- `ContextBuilder.build_context`: the empty-input sentinel, then the
budgeted loop, then `"\n\n---\n\n".join(context_parts)`. -/
def build_context (chunks : List SearchResult) (max_tokens : Nat := 2000)
    (include_sources : Bool := true) : String :=
  if chunks.isEmpty then "No relevant information found."
  else joinStr "\n\n---\n\n" (buildLoop include_sources max_tokens chunks 0).1

end ContextBuilder

/-! ## Helper lemmas about the retrieval pipeline -/

lemma mem_formatLoop {t : ℚ} {r : SearchResult} :
    ∀ {i : Nat} {items : List QueryItem},
      r ∈ ChromaVectorDB.formatLoop t i items → t ≤ r.similarity := by
  intro i items
  induction items generalizing i with
  | nil => intro h; simp [ChromaVectorDB.formatLoop] at h
  | cons it rest ih =>
    intro h
    rw [ChromaVectorDB.formatLoop] at h
    by_cases hc : t ≤ 1 - it.distance
    · rw [if_pos hc] at h
      rcases List.mem_cons.mp h with h1 | h2
      · subst h1; exact hc
      · exact ih h2
    · rw [if_neg hc] at h
      exact ih h

lemma mem_search {db : ChromaVectorDB} {qe : List ℚ} {n : Nat} {nm : Option String}
    {t : ℚ} {r : SearchResult} (h : r ∈ db.search qe n nm t) : t ≤ r.similarity := by
  rw [ChromaVectorDB.search] at h
  cases hcol : db.collection with
  | none => rw [hcol] at h; simp at h
  | some c =>
    rw [hcol] at h
    cases hq : db.queryRes qe n (ChromaVectorDB.whereFilterOf nm) with
    | error e => rw [hq] at h; simp at h
    | ok items => rw [hq] at h; exact mem_formatLoop h

lemma mem_of_mem_take_rerank {l : List SearchResult} {k : Nat} {cond : Prop}
    [Decidable cond] {r : SearchResult}
    (h : r ∈ List.take k (if cond then SemanticRetriever.rerank_results l else l)) :
    r ∈ l := by
  have h2 := List.mem_of_mem_take h
  by_cases hc : cond
  · rw [if_pos hc] at h2
    exact List.mem_mergeSort.mp h2
  · rwa [if_neg hc] at h2

/-- Any result of `retrieve` passed the configured threshold filter and came
out of a `search` call made with `threshold=0.0`. -/
lemma mem_retrieve {er : String → Except String (List ℚ)} {db : ChromaVectorDB}
    {cfg : RetrievalConfig} {query : String} {cn : Option String} {tk : Option Nat}
    {r : SearchResult} (h : r ∈ SemanticRetriever.retrieve er db cfg query cn tk) :
    cfg.similarity_threshold ≤ r.similarity ∧ (0 : ℚ) ≤ r.similarity := by
  rw [SemanticRetriever.retrieve, SemanticRetriever.retrieveTry] at h
  cases her : er query with
  | error e => rw [her] at h; simp at h
  | ok qe =>
    rw [her] at h
    cases hrc : SemanticRetriever.resolveCollection db cn with
    | none => rw [hrc] at h; simp at h
    | some db1 =>
      rw [hrc] at h
      simp only at h
      have hfil : r ∈ (db1.search qe (pyOr tk cfg.top_k * 2) cn 0).filter
          (fun r => decide (cfg.similarity_threshold ≤ r.similarity)) :=
        mem_of_mem_take_rerank h
      rcases List.mem_filter.mp hfil with ⟨hmem, hp⟩
      exact ⟨of_decide_eq_true hp, mem_search hmem⟩

/-! ## Concrete fixtures

Small concrete oracle instances used to evaluate the pipeline at explicit
inputs (for witnesses and counterexamples). -/

/-- An embedding model that succeeds with the vector `[1]`. -/
def erOk : String → Except String (List ℚ) := fun _ => .ok [1]

/-- An embedding model whose `encode` raises. -/
def erFail : String → Except String (List ℚ) := fun _ => .error "embedding failure"

def meta0 : Metadata := [("charity_name", "Sample Charity")]

/-- One indexed chunk at cosine distance `1/2` from every query. -/
def item0 : QueryItem := { doc := "doc text", meta := meta0, distance := 1/2 }

/-- A vector DB with a bound collection, one queryable item, and every
`get_collection` succeeding. -/
def db0 : ChromaVectorDB :=
  { collection := some "sample_charity"
    queryRes := fun _ _ _ => .ok [item0]
    existing := fun _ => true }

/-- Same DB state, but every `get_collection` raises (no collection exists). -/
def dbMissing : ChromaVectorDB :=
  { collection := some "sample_charity"
    queryRes := fun _ _ _ => .ok [item0]
    existing := fun _ => false }

/-- The source-default retrieval configuration. -/
def cfg0 : RetrievalConfig := {}

/-- A configuration with a negative similarity threshold. -/
def cfgNeg : RetrievalConfig := { similarity_threshold := -(1/2) }

/-- The search result produced from `item0`: similarity `1 - 1/2 = 1/2`. -/
def res0 : SearchResult :=
  { rank := 1, text := "doc text", similarity := 1/2, metadata := meta0 }

lemma search_db0_eval : db0.search [1] 10 none (1/4) = [res0] := by
  norm_num [ChromaVectorDB.search, ChromaVectorDB.whereFilterOf, ChromaVectorDB.formatLoop,
    db0, item0, res0, meta0]

lemma retrieve_eval_none_none :
    SemanticRetriever.retrieve erOk db0 cfg0 "q" none none = [res0] := by
  norm_num [SemanticRetriever.retrieve, SemanticRetriever.retrieveTry,
    SemanticRetriever.resolveCollection, SemanticRetriever.rerank_results, pyOr,
    ChromaVectorDB.search, ChromaVectorDB.whereFilterOf, ChromaVectorDB.formatLoop,
    erOk, db0, cfg0, item0, res0, meta0]

lemma retrieve_eval_topk0 :
    SemanticRetriever.retrieve erOk db0 cfg0 "q" none (some 0) = [res0] := by
  norm_num [SemanticRetriever.retrieve, SemanticRetriever.retrieveTry,
    SemanticRetriever.resolveCollection, SemanticRetriever.rerank_results, pyOr,
    ChromaVectorDB.search, ChromaVectorDB.whereFilterOf, ChromaVectorDB.formatLoop,
    erOk, db0, cfg0, item0, res0, meta0]

lemma retrieve_eval_empty_charity :
    SemanticRetriever.retrieve erOk dbMissing cfg0 "q" (some "") none = [res0] := by
  norm_num [SemanticRetriever.retrieve, SemanticRetriever.retrieveTry,
    SemanticRetriever.resolveCollection, SemanticRetriever.rerank_results, pyOr,
    ChromaVectorDB.search, ChromaVectorDB.whereFilterOf, ChromaVectorDB.formatLoop,
    erOk, dbMissing, cfg0, item0, res0, meta0]

lemma retrieve_eval_negthreshold :
    SemanticRetriever.retrieve erOk db0 cfgNeg "q" none none = [res0] := by
  norm_num [SemanticRetriever.retrieve, SemanticRetriever.retrieveTry,
    SemanticRetriever.resolveCollection, SemanticRetriever.rerank_results, pyOr,
    ChromaVectorDB.search, ChromaVectorDB.whereFilterOf, ChromaVectorDB.formatLoop,
    erOk, db0, cfgNeg, item0, res0, meta0]

/-! ## Split/join lemmas

`_chunk_fixed_size` re-splits (`count_tokens_in_chunk`) the very string it
just joined from a word slice; these lemmas recover the slice's word count:
splitting a `' '.join` of nonempty whitespace-free words returns exactly
those words. -/

/-- Words produced by `str.split()` are nonempty and whitespace-free. -/
def CleanWord (w : String) : Prop :=
  w.data ≠ [] ∧ ∀ c ∈ w.data, c.isWhitespace = false

lemma splitWordsAux_clean :
    ∀ (cs acc : List Char), (∀ c ∈ acc, c.isWhitespace = false) →
      ∀ w ∈ splitWordsAux cs acc, w ≠ [] ∧ ∀ c ∈ w, c.isWhitespace = false := by
  intro cs
  induction cs with
  | nil =>
    intro acc hacc w hw
    rw [splitWordsAux] at hw
    by_cases he : acc.isEmpty
    · rw [if_pos he] at hw
      simp at hw
    · rw [if_neg he] at hw
      rcases List.mem_singleton.mp hw with rfl
      have hane : acc ≠ [] := fun h0 => he (by rw [h0]; rfl)
      exact ⟨by simpa using hane, fun d hd => hacc d (List.mem_reverse.mp hd)⟩
  | cons c cs ih =>
    intro acc hacc w hw
    rw [splitWordsAux] at hw
    by_cases hws : c.isWhitespace
    · rw [if_pos hws] at hw
      by_cases he : acc.isEmpty
      · rw [if_pos he] at hw
        exact ih [] (by simp) w hw
      · rw [if_neg he] at hw
        rcases List.mem_cons.mp hw with rfl | hw2
        · have hane : acc ≠ [] := fun h0 => he (by rw [h0]; rfl)
          exact ⟨by simpa using hane, fun d hd => hacc d (List.mem_reverse.mp hd)⟩
        · exact ih [] (by simp) w hw2
    · rw [if_neg hws] at hw
      refine ih (c :: acc) ?_ w hw
      intro d hd
      rcases List.mem_cons.mp hd with rfl | hd2
      · simpa using hws
      · exact hacc d hd2

lemma pySplit_clean (s : String) : ∀ w ∈ pySplit s, CleanWord w := by
  intro w hw
  rcases List.mem_map.mp hw with ⟨l, hl, rfl⟩
  have h := splitWordsAux_clean s.data [] (by simp) l hl
  exact ⟨h.1, h.2⟩

lemma splitWordsAux_append_word (w : List Char) :
    ∀ (rest acc : List Char), (∀ c ∈ w, c.isWhitespace = false) →
      splitWordsAux (w ++ rest) acc = splitWordsAux rest (w.reverse ++ acc) := by
  induction w with
  | nil => intro rest acc _; simp
  | cons c w ih =>
    intro rest acc hw
    have hc : c.isWhitespace = false := hw c (by simp)
    rw [List.cons_append, splitWordsAux, if_neg (by simp [hc])]
    rw [ih rest (c :: acc) (fun d hd => hw d (List.mem_cons_of_mem c hd))]
    simp

lemma splitWordsAux_intercalate :
    ∀ (ws : List (List Char)),
      (∀ w ∈ ws, w ≠ [] ∧ ∀ c ∈ w, c.isWhitespace = false) →
      splitWordsAux (List.intercalate [' '] ws) [] = ws := by
  intro ws
  induction ws with
  | nil => intro _; simp [List.intercalate, splitWordsAux]
  | cons w ws ih =>
    intro h
    have hw := h w (by simp)
    have hrevne : (w.reverse ++ []).isEmpty = false := by
      simp [hw.1]
    cases ws with
    | nil =>
      have hint : List.intercalate [' '] [w] = w := by simp [List.intercalate]
      rw [hint]
      have h2 := splitWordsAux_append_word w [] [] hw.2
      rw [List.append_nil] at h2
      rw [h2, splitWordsAux, hrevne]
      simp
    | cons w2 ws2 =>
      have hint : List.intercalate [' '] (w :: w2 :: ws2) =
          w ++ ' ' :: List.intercalate [' '] (w2 :: ws2) := by
        simp [List.intercalate, List.intersperse]
      rw [hint, splitWordsAux_append_word w _ [] hw.2]
      rw [splitWordsAux, if_pos (by rfl), hrevne]
      have hih := ih (fun x hx => h x (List.mem_cons_of_mem w hx))
      simp [hih]

lemma pySplit_joinWords (ws : List String) (h : ∀ w ∈ ws, CleanWord w) :
    pySplit (joinWords ws) = ws := by
  rw [pySplit, joinWords, joinStr]
  have hdata : (String.mk (List.intercalate " ".data (ws.map String.data))).data =
      List.intercalate [' '] (ws.map String.data) := rfl
  rw [hdata, splitWordsAux_intercalate]
  · rw [List.map_map]
    have : (fun w => (⟨w⟩ : String)) ∘ String.data = id := by
      funext s
      rfl
    rw [this, List.map_id]
  · intro w hw
    rcases List.mem_map.mp hw with ⟨s, hs, rfl⟩
    exact h s hs

lemma length_pySplit_joinWords (ws : List String) (h : ∀ w ∈ ws, CleanWord w) :
    (pySplit (joinWords ws)).length = ws.length := by
  rw [pySplit_joinWords ws h]

/-! ## Chunk-size bounds for the fixed and paragraph strategies -/

/-- A window of at most `words_per_chunk` clean words re-estimates to at most
`chunk_size` tokens (or `1` for an empty window): `int(c*0.75)` words map back
through `int(w/0.75)` to at most `c` tokens. -/
lemma token_le_of_word_bound (cfg : ChunkConfig) (slice : List String)
    (hclean : ∀ w ∈ slice, CleanWord w)
    (hlen : slice.length ≤ DocumentChunker.wordsPerChunk cfg) :
    TokenCounter.count_tokens_in_chunk (joinWords slice) ≤ max 1 cfg.chunk_size := by
  rw [TokenCounter.count_tokens_in_chunk, estimate_tokens_eq, pySplit_joinWords slice hclean]
  rw [DocumentChunker.wordsPerChunk_eq] at hlen
  have h1 : 4 * slice.length / 3 ≤ cfg.chunk_size := by omega
  exact max_le_max (le_refl 1) h1

lemma chunkFixedLoop_token_le (cfg : ChunkConfig) (meta : Metadata) (words : List String)
    (hclean : ∀ w ∈ words, CleanWord w) :
    ∀ (rem start chunkId : Nat), words.length - start ≤ rem →
      ∀ c ∈ DocumentChunker.chunkFixedLoop cfg meta words start chunkId,
        c.token_count ≤ max 1 cfg.chunk_size := by
  intro rem
  induction rem with
  | zero =>
    intro start chunkId hrem c hc
    rw [DocumentChunker.chunkFixedLoop.eq_def, dif_neg (by omega)] at hc
    simp at hc
  | succ rem ih =>
    intro start chunkId hrem c hc
    rw [DocumentChunker.chunkFixedLoop.eq_def] at hc
    by_cases h : start < words.length
    · rw [dif_pos h] at hc
      simp only [] at hc
      have hslice : ∀ w ∈ List.take (min (start + DocumentChunker.wordsPerChunk cfg)
          words.length - start) (List.drop start words), CleanWord w :=
        fun w hw => hclean w (List.mem_of_mem_drop (List.mem_of_mem_take hw))
      have hslen : (List.take (min (start + DocumentChunker.wordsPerChunk cfg)
          words.length - start) (List.drop start words)).length ≤
            DocumentChunker.wordsPerChunk cfg := by
        rw [List.length_take]
        omega
      have hrest : ∀ (id2 : Nat), ∀ u ∈ (if ((start : Int) ≤
            ((min (start + DocumentChunker.wordsPerChunk cfg) words.length : Nat) : Int) -
              (DocumentChunker.overlapWords cfg : Int) ∧
            min (start + DocumentChunker.wordsPerChunk cfg) words.length = words.length)
          then ([] : List Chunk)
          else DocumentChunker.chunkFixedLoop cfg meta words
            (DocumentChunker.nextStartIdx start
              (((min (start + DocumentChunker.wordsPerChunk cfg) words.length : Nat) : Int) -
                (DocumentChunker.overlapWords cfg : Int))) id2),
          u.token_count ≤ max 1 cfg.chunk_size := by
        intro id2 u hu
        split at hu
        · simp at hu
        · have hadv := DocumentChunker.succ_le_nextStartIdx start
            (((min (start + DocumentChunker.wordsPerChunk cfg) words.length : Nat) : Int) -
              (DocumentChunker.overlapWords cfg : Int))
          exact ih (DocumentChunker.nextStartIdx start _) _ (by omega) u hu
      split at hc
      · rcases List.mem_cons.mp hc with rfl | hc2
        · exact token_le_of_word_bound cfg _ hslice hslen
        · exact hrest _ c hc2
      · exact hrest _ c hc
    · rw [dif_neg h] at hc
      simp at hc

/-- Every chunk of `_chunk_fixed_size` estimates to at most
`max 1 chunk_size` tokens. -/
lemma chunk_fixed_size_token_le (cfg : ChunkConfig) (text : String) (meta : Metadata) :
    ∀ c ∈ DocumentChunker.chunk_fixed_size cfg text meta,
      c.token_count ≤ max 1 cfg.chunk_size := by
  intro c hc
  exact chunkFixedLoop_token_le cfg meta (pySplit text) (pySplit_clean text)
    (pySplit text).length 0 0 (le_refl _) c hc

lemma renumber_mem (cs : List Chunk) :
    ∀ (i : Nat) (c : Chunk), c ∈ (DocumentChunker.renumber cs i).1 →
      ∃ c0 ∈ cs, c.token_count = c0.token_count := by
  induction cs with
  | nil => intro i c hc; simp [DocumentChunker.renumber] at hc
  | cons c0 cs ih =>
    intro i c hc
    rw [DocumentChunker.renumber] at hc
    rcases List.mem_cons.mp hc with rfl | hc2
    · exact ⟨c0, by simp, rfl⟩
    · rcases ih (i + 1) c hc2 with ⟨c1, hc1, he⟩
      exact ⟨c1, List.mem_cons_of_mem c0 hc1, he⟩

lemma chunkParagraphLoop_token_le (cfg : ChunkConfig) (meta : Metadata) :
    ∀ (paras cur : List String) (tokens chunkId : Nat),
      (cur ≠ [] → tokens ≤ max 1 cfg.chunk_size) →
      ∀ c ∈ DocumentChunker.chunkParagraphLoop cfg meta paras cur tokens chunkId,
        c.token_count ≤ max 1 cfg.chunk_size := by
  intro paras
  induction paras with
  | nil =>
    intro cur tokens chunkId hinv c hc
    rw [DocumentChunker.chunkParagraphLoop] at hc
    split at hc
    · simp at hc
    · rcases List.mem_singleton.mp hc with rfl
      rename_i hne
      have hcur : cur ≠ [] := by
        intro h0
        rw [h0] at hne
        exact hne rfl
      simpa using hinv hcur
  | cons para rest ih =>
    intro cur tokens chunkId hinv c hc
    rw [DocumentChunker.chunkParagraphLoop] at hc
    simp only [] at hc
    split at hc
    · exact ih cur tokens chunkId hinv c hc
    · split at hc
      · -- oversized paragraph: flush, sub-split, continue with empty state
        rename_i hlong
        rcases List.mem_append.mp hc with hc1 | hc2
        · rcases List.mem_append.mp hc1 with hcf | hcs
          · -- the flushed chunk
            split at hcf
            · simp at hcf
            · rcases List.mem_singleton.mp hcf with rfl
              rename_i hne
              have hcur : cur ≠ [] := by
                intro h0
                rw [h0] at hne
                exact hne rfl
              simpa using hinv hcur
          · -- a renumbered sub-chunk of the fixed split
            rcases renumber_mem _ _ _ hcs with ⟨c0, hc0, he⟩
            rw [he]
            exact chunk_fixed_size_token_le cfg _ meta c0 hc0
        · exact ih [] 0 _ (fun h0 => absurd rfl h0) c hc2
      · split at hc
        · -- paragraph fits: accumulate
          rename_i hfit
          refine ih (cur ++ [pyStrip para]) (tokens + _) chunkId ?_ c hc
          intro _
          exact le_max_of_le_right hfit
        · -- flush and start a fresh chunk with this paragraph
          rename_i hlong hfit
          rcases List.mem_append.mp hc with hcf | hc2
          · split at hcf
            · simp at hcf
            · rcases List.mem_singleton.mp hcf with rfl
              rename_i hne
              have hcur : cur ≠ [] := by
                intro h0
                rw [h0] at hne
                exact hne rfl
              simpa using hinv hcur
          · refine ih [pyStrip para] _ _ ?_ c hc2
            intro _
            exact le_max_of_le_right (by omega)

/-- Every chunk of `_chunk_paragraph` estimates to at most
`max 1 chunk_size` tokens. -/
lemma chunk_paragraph_token_le (cfg : ChunkConfig) (text : String) (meta : Metadata) :
    ∀ c ∈ DocumentChunker.chunk_paragraph cfg text meta,
      c.token_count ≤ max 1 cfg.chunk_size := by
  intro c hc
  exact chunkParagraphLoop_token_le cfg meta (pySplitParas text) [] 0 0
    (fun h0 => absurd rfl h0) c hc

/-! ## Context-builder characterisation -/

/-- Total estimated token count of a list of chunks, by the context builder's
own estimator. -/
def sumCtx (l : List SearchResult) : Nat :=
  (l.map fun c => ContextBuilder.ctxTokens c.text).sum

lemma sumCtx_nil : sumCtx [] = 0 := rfl

lemma sumCtx_cons (c : SearchResult) (l : List SearchResult) :
    sumCtx (c :: l) = ContextBuilder.ctxTokens c.text + sumCtx l := by
  simp [sumCtx]

/-- The context loop includes a greedy prefix of the chunks: it walks in
order, adds whole chunks while the running estimated total stays within
`max_tokens`, and stops at the first chunk that would exceed it. -/
lemma buildLoop_char (inc : Bool) (mt : Nat) :
    ∀ (chunks : List SearchResult) (tc : Nat), tc ≤ mt →
      ∃ n, n ≤ chunks.length ∧
        (ContextBuilder.buildLoop inc mt chunks tc).1 =
          (chunks.take n).map (ContextBuilder.formatChunk inc) ∧
        (ContextBuilder.buildLoop inc mt chunks tc).2 = tc + sumCtx (chunks.take n) ∧
        tc + sumCtx (chunks.take n) ≤ mt ∧
        ∀ c rest2, chunks.drop n = c :: rest2 →
          mt < tc + sumCtx (chunks.take n) + ContextBuilder.ctxTokens c.text := by
  intro chunks
  induction chunks with
  | nil =>
    intro tc htc
    refine ⟨0, by simp, by simp [ContextBuilder.buildLoop], by simp [ContextBuilder.buildLoop, sumCtx_nil], by simpa [sumCtx_nil], ?_⟩
    intro c rest2 hdrop
    simp at hdrop
  | cons c rest ih =>
    intro tc htc
    rw [ContextBuilder.buildLoop]
    by_cases hb : mt < tc + ContextBuilder.ctxTokens c.text
    · refine ⟨0, by simp, by rw [if_pos hb]; simp, by rw [if_pos hb]; simp [sumCtx_nil], by simpa [sumCtx_nil], ?_⟩
      intro c2 rest2 hdrop
      rw [List.drop_zero] at hdrop
      cases hdrop
      simpa [sumCtx_nil] using hb
    · have htc2 : tc + ContextBuilder.ctxTokens c.text ≤ mt := by omega
      obtain ⟨n, hlen, hparts, hsum, hle, hstop⟩ := ih (tc + ContextBuilder.ctxTokens c.text) htc2
      refine ⟨n + 1, by simpa using hlen, ?_, ?_, ?_, ?_⟩
      · rw [if_neg hb]
        simp only [List.take_succ_cons, List.map_cons]
        rw [hparts]
      · rw [if_neg hb]
        simp only [List.take_succ_cons, sumCtx_cons]
        rw [hsum]
        omega
      · rw [List.take_succ_cons, sumCtx_cons]
        omega
      · intro c2 rest2 hdrop
        rw [List.drop_succ_cons] at hdrop
        have := hstop c2 rest2 hdrop
        rw [List.take_succ_cons, sumCtx_cons]
        omega

/-! ## Concrete chunking fixtures -/

/-- A small chunking configuration (`chunk_size=4` tokens — i.e. 3 words per
window — no overlap, `min_chunk_size=3`). -/
def cfgC4 : ChunkConfig :=
  { chunk_size := 4, overlap := 0, strategy := "paragraph", min_chunk_size := 3 }

/-- The single chunk both strategies produce from `"a b c d e"` under
`cfgC4`: the 3-word window `"a b c"` (4 estimated tokens); the trailing
2-word window `"d e"` estimates to 2 < `min_chunk_size` tokens and is
dropped. -/
def chunkC4 : Chunk :=
  { id := "chunk_0", text := "a b c", startIdx := some 0, endIdx := some 3,
    token_count := 4, metadata := [] }

lemma fixedLoop_iter2 :
    DocumentChunker.chunkFixedLoop cfgC4 [] ["a", "b", "c", "d", "e"] 3 1 = [] := by
  have h2 : pySplit (joinWords ["d", "e"]) = ["d", "e"] := rfl
  have h2b : pySplit "d e" = ["d", "e"] := rfl
  have hj2 : joinWords ["d", "e"] = "d e" := rfl
  have hcs : cfgC4.chunk_size = 4 := rfl
  have hov : cfgC4.overlap = 0 := rfl
  have hmin : cfgC4.min_chunk_size = 3 := rfl
  rw [DocumentChunker.chunkFixedLoop.eq_def]
  simp only [DocumentChunker.wordsPerChunk_eq, DocumentChunker.overlapWords_eq,
    TokenCounter.count_tokens_in_chunk, estimate_tokens_eq, hcs, hov, hmin]
  norm_num [h2, h2b, hj2]

lemma chunk_fixed_eval_C4 :
    DocumentChunker.chunk_fixed_size cfgC4 "a b c d e" [] = [chunkC4] := by
  have hsplit : pySplit "a b c d e" = ["a", "b", "c", "d", "e"] := rfl
  have h1 : pySplit (joinWords ["a", "b", "c"]) = ["a", "b", "c"] := rfl
  have h1b : pySplit "a b c" = ["a", "b", "c"] := rfl
  have hj1 : joinWords ["a", "b", "c"] = "a b c" := rfl
  have hid0 : ("chunk_" ++ toString 0 : String) = "chunk_0" := by decide
  have hcs : cfgC4.chunk_size = 4 := rfl
  have hov : cfgC4.overlap = 0 := rfl
  have hmin : cfgC4.min_chunk_size = 3 := rfl
  have hns : DocumentChunker.nextStartIdx 0 3 = 3 := rfl
  rw [DocumentChunker.chunk_fixed_size, hsplit]
  rw [DocumentChunker.chunkFixedLoop.eq_def]
  simp only [DocumentChunker.wordsPerChunk_eq, DocumentChunker.overlapWords_eq,
    TokenCounter.count_tokens_in_chunk, estimate_tokens_eq, hcs, hov, hmin]
  norm_num [h1, h1b, hj1, hid0, hns, fixedLoop_iter2, chunkC4]

lemma chunk_para_eval_C4 :
    DocumentChunker.chunk_paragraph cfgC4 "a b c d e" [] = [chunkC4] := by
  have hparas : pySplitParas "a b c d e" = ["a b c d e"] := rfl
  have hstrip : pyStrip "a b c d e" = "a b c d e" := rfl
  have hne : ("a b c d e" : String) ≠ "" := by decide
  have htok : TokenCounter.count_tokens_in_chunk "a b c d e" = 6 := by
    rw [TokenCounter.count_tokens_in_chunk, estimate_tokens_eq]
    rfl
  have hid0 : ("chunk_" ++ toString 0 : String) = "chunk_0" := by decide
  have hcs : cfgC4.chunk_size = 4 := rfl
  rw [DocumentChunker.chunk_paragraph, hparas]
  rw [DocumentChunker.chunkParagraphLoop]
  simp only [hstrip, htok, hcs]
  norm_num [hne, chunk_fixed_eval_C4, DocumentChunker.renumber, hid0,
    DocumentChunker.chunkParagraphLoop, chunkC4]

/-- The fixed-strategy configuration used for the single-word evaluation. -/
def cfgC6 : ChunkConfig :=
  { chunk_size := 4, overlap := 0, strategy := "fixed", min_chunk_size := 1 }

lemma chunk_fixed_eval_whitespace (cfg : ChunkConfig) (meta : Metadata) :
    DocumentChunker.chunk_fixed_size cfg "   " meta = [] := by
  have hsplit : pySplit "   " = [] := rfl
  rw [DocumentChunker.chunk_fixed_size, hsplit,
    DocumentChunker.chunkFixedLoop.eq_def, dif_neg (by simp)]

lemma chunk_fixed_eval_word :
    DocumentChunker.chunk_fixed_size cfgC6 "word" [] =
      [{ id := "chunk_0", text := "word", startIdx := some 0, endIdx := some 1,
         token_count := 1, metadata := [] }] := by
  have hsplit : pySplit "word" = ["word"] := rfl
  have h1 : pySplit (joinWords ["word"]) = ["word"] := rfl
  have hj1 : joinWords ["word"] = "word" := rfl
  have hid0 : ("chunk_" ++ toString 0 : String) = "chunk_0" := by decide
  have hcs : cfgC6.chunk_size = 4 := rfl
  have hov : cfgC6.overlap = 0 := rfl
  have hmin : cfgC6.min_chunk_size = 1 := rfl
  rw [DocumentChunker.chunk_fixed_size, hsplit]
  rw [DocumentChunker.chunkFixedLoop.eq_def]
  simp only [DocumentChunker.wordsPerChunk_eq, DocumentChunker.overlapWords_eq,
    TokenCounter.count_tokens_in_chunk, estimate_tokens_eq, hcs, hov, hmin]
  norm_num [h1, hj1, hid0, hsplit]

/-! ## Claims -/

/-- Claim C2: `ContextBuilder.build_context` walks the results in order and
includes a greedy prefix of whole chunks: it stops at the first chunk whose
estimated token count added to the running total would exceed `max_tokens`,
never substitutes a later chunk, and the estimated token total of the
included chunks never exceeds `max_tokens`. -/
theorem claim_C2_context_budget (chunks : List SearchResult) (max_tokens : Nat)
    (include_sources : Bool) :
    ∃ n, n ≤ chunks.length ∧
      (ContextBuilder.buildLoop include_sources max_tokens chunks 0).1 =
        (chunks.take n).map (ContextBuilder.formatChunk include_sources) ∧
      (ContextBuilder.buildLoop include_sources max_tokens chunks 0).2 =
        sumCtx (chunks.take n) ∧
      sumCtx (chunks.take n) ≤ max_tokens ∧
      (∀ c rest2, chunks.drop n = c :: rest2 →
        max_tokens < sumCtx (chunks.take n) + ContextBuilder.ctxTokens c.text) ∧
      ContextBuilder.build_context chunks max_tokens include_sources =
        (if chunks.isEmpty then "No relevant information found."
         else joinStr "\n\n---\n\n"
           (ContextBuilder.buildLoop include_sources max_tokens chunks 0).1) := by
  obtain ⟨n, hlen, hparts, hsum, hle, hstop⟩ :=
    buildLoop_char include_sources max_tokens chunks 0 (Nat.zero_le _)
  refine ⟨n, hlen, hparts, by simpa using hsum, by simpa using hle, ?_, rfl⟩
  intro c rest2 hdrop
  simpa using hstop c rest2 hdrop

/-- The token estimator as the spec words it (for comparison with the code):
`max(1, round(word_count / 0.75))`, with a rounding `round` in place of the
code's truncating `int(...)`. -/
def specEstimateTokens (text : String) : Nat :=
  max 1 (round (((pySplit text).length : ℚ) / 0.75)).toNat

/-- Claim C3 (counterexample): on the two-word text `"a b"`,
`estimate_tokens` returns `int(2 / 0.75) = 2`, while the spec's
`round(2 / 0.75)` is `3`. -/
theorem claim_C3_counterexample :
    TokenCounter.estimate_tokens "a b" = 2 ∧ specEstimateTokens "a b" = 3 ∧
      TokenCounter.estimate_tokens "a b" ≠ specEstimateTokens "a b" := by
  have h1 : TokenCounter.estimate_tokens "a b" = 2 := by
    rw [estimate_tokens_eq]
    rfl
  have h2 : specEstimateTokens "a b" = 3 := by
    have hs : pySplit "a b" = ["a", "b"] := rfl
    rw [specEstimateTokens, hs]
    norm_num [round_eq]
    rfl
  exact ⟨h1, h2, by rw [h1, h2]; decide⟩

/-- Claim C3 (amended): for every string, the token estimator returns
`max(1, floor(word_count / 0.75))` — `int()` truncates, it does not round —
and the empty string yields `1`. -/
theorem claim_C3_token_estimator (text : String) :
    TokenCounter.estimate_tokens text = max 1 (4 * (pySplit text).length / 3) ∧
    TokenCounter.estimate_tokens "" = 1 :=
  ⟨estimate_tokens_eq text, by rw [estimate_tokens_eq]; rfl⟩

/-- Claim C9: `cosine_similarity` returns the dot product over the product of
the norms, except that a zero norm on either side short-circuits to `0.0`;
in the division branch the divisor is provably nonzero.  `sqrtFn` stands for
the square root inside `np.linalg.norm`, constrained to vanish exactly on
zero (as the real square root does on the nonnegative `normSq`). -/
theorem claim_C9_cosine_guard (sqrtFn : ℚ → ℚ)
    (hsqrt : ∀ x : ℚ, 0 ≤ x → (sqrtFn x = 0 ↔ x = 0)) (v1 v2 : List ℚ) :
    ((EmbeddingGenerator.normSq v1 = 0 ∨ EmbeddingGenerator.normSq v2 = 0) →
      EmbeddingGenerator.cosine_similarity sqrtFn v1 v2 = 0) ∧
    (EmbeddingGenerator.normSq v1 ≠ 0 → EmbeddingGenerator.normSq v2 ≠ 0 →
      sqrtFn (EmbeddingGenerator.normSq v1) * sqrtFn (EmbeddingGenerator.normSq v2) ≠ 0 ∧
      EmbeddingGenerator.cosine_similarity sqrtFn v1 v2 =
        EmbeddingGenerator.dotProduct v1 v2 /
          (sqrtFn (EmbeddingGenerator.normSq v1) * sqrtFn (EmbeddingGenerator.normSq v2))) := by
  constructor
  · intro h
    simp only [EmbeddingGenerator.cosine_similarity]
    rw [if_pos]
    rcases h with h | h
    · exact Or.inl ((hsqrt _ (EmbeddingGenerator.normSq_nonneg v1)).mpr h)
    · exact Or.inr ((hsqrt _ (EmbeddingGenerator.normSq_nonneg v2)).mpr h)
  · intro h1 h2
    have hna : sqrtFn (EmbeddingGenerator.normSq v1) ≠ 0 := fun hz =>
      h1 ((hsqrt _ (EmbeddingGenerator.normSq_nonneg v1)).mp hz)
    have hnb : sqrtFn (EmbeddingGenerator.normSq v2) ≠ 0 := fun hz =>
      h2 ((hsqrt _ (EmbeddingGenerator.normSq_nonneg v2)).mp hz)
    refine ⟨mul_ne_zero hna hnb, ?_⟩
    simp only [EmbeddingGenerator.cosine_similarity]
    rw [if_neg (not_or.mpr ⟨hna, hnb⟩)]

theorem claim_C9_witness :
    id (EmbeddingGenerator.normSq [(1 : ℚ)]) * id (EmbeddingGenerator.normSq [(2 : ℚ)]) ≠ 0 ∧
    EmbeddingGenerator.cosine_similarity id [(1 : ℚ)] [(2 : ℚ)] =
      EmbeddingGenerator.dotProduct [(1 : ℚ)] [(2 : ℚ)] /
        (id (EmbeddingGenerator.normSq [(1 : ℚ)]) * id (EmbeddingGenerator.normSq [(2 : ℚ)])) :=
  (claim_C9_cosine_guard id (fun _ _ => Iff.rfl) [(1 : ℚ)] [(2 : ℚ)]).2
    (by norm_num [EmbeddingGenerator.normSq])
    (by norm_num [EmbeddingGenerator.normSq])

/-- Claim C1: for every call to `SemanticRetriever.retrieve` and every item in
the list it returns, the item's similarity is at least the configured
`similarity_threshold`; every candidate strictly below the threshold is
filtered out. -/
theorem claim_C1_threshold_invariant (er : String → Except String (List ℚ))
    (db : ChromaVectorDB) (cfg : RetrievalConfig) (query : String)
    (cn : Option String) (tk : Option Nat) (r : SearchResult)
    (h : r ∈ SemanticRetriever.retrieve er db cfg query cn tk) :
    cfg.similarity_threshold ≤ r.similarity :=
  (mem_retrieve h).1

theorem claim_C1_witness : cfg0.similarity_threshold ≤ res0.similarity :=
  claim_C1_threshold_invariant erOk db0 cfg0 "q" none none res0
    (by rw [retrieve_eval_none_none]; exact List.mem_singleton.mpr rfl)

/-- Claim C5: any exception escaping the `try:` block of
`SemanticRetriever.retrieve` (the body `retrieveTry`) is caught and converted
into an empty result list — `retrieve` never propagates it. -/
theorem claim_C5_never_raises (er : String → Except String (List ℚ))
    (db : ChromaVectorDB) (cfg : RetrievalConfig) (query : String)
    (cn : Option String) (tk : Option Nat) (e : String)
    (h : SemanticRetriever.retrieveTry er db cfg query cn tk = .error e) :
    SemanticRetriever.retrieve er db cfg query cn tk = [] := by
  rw [SemanticRetriever.retrieve, h]

theorem claim_C5_witness :
    SemanticRetriever.retrieve erFail db0 cfg0 "q" none none = [] :=
  claim_C5_never_raises erFail db0 cfg0 "q" none none "embedding failure" rfl

/-- Claim C7 (counterexample): calling `retrieve` with the explicit per-call
argument `top_k = 0` does not bound the result count by `0`: Python's
`top_k or self.config.top_k` treats `0` as absent and uses the default. -/
theorem claim_C7_counterexample :
    ¬ ((SemanticRetriever.retrieve erOk db0 cfg0 "q" none (some 0)).length ≤ 0) := by
  rw [retrieve_eval_topk0]
  simp

/-- Claim C7 (amended): the number of results is at most the effective `k`
(`top_k or config.top_k`, so a given-but-zero `top_k` falls back to the
default) and at most the number of candidates that survive the threshold
filter. -/
theorem claim_C7_topk_bound (er : String → Except String (List ℚ))
    (db : ChromaVectorDB) (cfg : RetrievalConfig) (query : String)
    (cn : Option String) (tk : Option Nat) :
    (SemanticRetriever.retrieve er db cfg query cn tk).length ≤ pyOr tk cfg.top_k ∧
    (SemanticRetriever.retrieve er db cfg query cn tk).length ≤
      (SemanticRetriever.retrieveFiltered er db cfg query cn tk).length := by
  rw [SemanticRetriever.retrieve, SemanticRetriever.retrieveTry,
    SemanticRetriever.retrieveFiltered]
  cases her : er query with
  | error e => simp
  | ok qe =>
    cases hrc : SemanticRetriever.resolveCollection db cn with
    | none => simp
    | some db1 =>
      simp only
      constructor
      · exact List.length_take_le _ _
      · rw [List.length_take]
        split
        · rw [SemanticRetriever.rerank_results, List.length_mergeSort]
          exact min_le_right _ _
        · exact min_le_right _ _

/-- Claim C8 (counterexample): the empty string is a `charity_name` whose
normalized collection name does not exist, yet `retrieve` does not return
`[]`: `if charity_name:` is false for `""`, so the existence check is skipped
and the currently bound collection is searched. -/
theorem claim_C8_counterexample :
    dbMissing.existing (normalizeCollectionName "") = false ∧
    SemanticRetriever.retrieve erOk dbMissing cfg0 "q" (some "") none ≠ [] := by
  refine ⟨rfl, ?_⟩
  rw [retrieve_eval_empty_charity]
  simp

/-- Claim C8 (amended): for a nonempty `charity_name` whose normalized
collection name does not exist in the vector database, `retrieve` returns
`[]` immediately, without raising and without falling back to another
collection. -/
theorem claim_C8_missing_collection (er : String → Except String (List ℚ))
    (db : ChromaVectorDB) (cfg : RetrievalConfig) (query : String)
    (tk : Option Nat) (s : String) (hs : s ≠ "")
    (hmiss : db.existing (normalizeCollectionName s) = false) :
    SemanticRetriever.retrieve er db cfg query (some s) tk = [] := by
  rw [SemanticRetriever.retrieve, SemanticRetriever.retrieveTry]
  cases her : er query with
  | error e => rfl
  | ok qe =>
    have hrc : SemanticRetriever.resolveCollection db (some s) = none := by
      rw [SemanticRetriever.resolveCollection]
      simp [hs, hmiss]
    rw [hrc]

theorem claim_C8_witness :
    SemanticRetriever.retrieve erOk dbMissing cfg0 "q" (some "Unknown Org") none = [] :=
  claim_C8_missing_collection erOk dbMissing cfg0 "q" none "Unknown Org"
    (by decide) rfl

/-- Claim C10: `ChromaVectorDB.search` only returns items whose similarity
(`1 - distance`) is at least its `threshold` argument; and since `retrieve`
always calls it with `threshold=0.0`, no retrieved item ever has negative
similarity, whatever the configured `similarity_threshold`. -/
theorem claim_C10_nonnegative_similarity :
    (∀ (db : ChromaVectorDB) (qe : List ℚ) (n : Nat) (nm : Option String)
        (t : ℚ) (r : SearchResult), r ∈ db.search qe n nm t → t ≤ r.similarity) ∧
    (∀ (er : String → Except String (List ℚ)) (db : ChromaVectorDB)
        (cfg : RetrievalConfig) (query : String) (cn : Option String)
        (tk : Option Nat) (r : SearchResult),
        r ∈ SemanticRetriever.retrieve er db cfg query cn tk →
          (0 : ℚ) ≤ r.similarity) :=
  ⟨fun _ _ _ _ _ _ h => mem_search h,
   fun _ _ _ _ _ _ _ h => (mem_retrieve h).2⟩

theorem claim_C10_witness :
    ((1 : ℚ)/4 ≤ res0.similarity) ∧ ((0 : ℚ) ≤ res0.similarity) :=
  ⟨claim_C10_nonnegative_similarity.1 db0 [1] 10 none (1/4) res0
     (by rw [search_db0_eval]; exact List.mem_singleton.mpr rfl),
   claim_C10_nonnegative_similarity.2 erOk db0 cfgNeg "q" none none res0
     (by rw [retrieve_eval_negthreshold]; exact List.mem_singleton.mpr rfl)⟩

/-- Claim C4 (counterexample): under `cfgC4` (`chunk_size=4, overlap=0,
min_chunk_size=3`) the single paragraph `"a b c d e"` exceeds `chunk_size`
and is further split by the fixed strategy — but the trailing window
`"d e"` estimates below `min_chunk_size` and is silently dropped: the input
word `"e"` appears in no produced chunk. -/
theorem claim_C4_counterexample :
    (DocumentChunker.chunk_paragraph cfgC4 "a b c d e" []).map Chunk.text = ["a b c"] ∧
    "e" ∈ pySplit "a b c d e" ∧ "e" ∉ pySplit "a b c" := by
  refine ⟨?_, by decide, by decide⟩
  rw [chunk_para_eval_C4]
  rfl

/-- Claim C4 (amended): every chunk produced by the fixed or paragraph
strategy has `token_count ≤ max 1 chunk_size` (the floor of 1 covers the
degenerate empty window); an oversized paragraph is not dropped wholesale but
recursively split with the fixed strategy — which may, however, silently drop
a trailing remainder estimating below `min_chunk_size`. -/
theorem claim_C4_token_bound (cfg : ChunkConfig) (text : String) (meta : Metadata) :
    (∀ c ∈ DocumentChunker.chunk_fixed_size cfg text meta,
      c.token_count ≤ max 1 cfg.chunk_size) ∧
    (∀ c ∈ DocumentChunker.chunk_paragraph cfg text meta,
      c.token_count ≤ max 1 cfg.chunk_size) :=
  ⟨chunk_fixed_size_token_le cfg text meta, chunk_paragraph_token_le cfg text meta⟩

/-- Claim C6: fixed-strategy chunking terminates on every finite input — the
advance step `max(next_start_idx, start_idx + 1)` moves the window start by
at least one word whenever the loop does not break (it is on this strict
advance that `chunkFixedLoop`'s termination measure rests) — including for
the degenerate all-whitespace and single-word inputs. -/
theorem claim_C6_termination :
    (∀ (start : Nat) (ns : Int), start + 1 ≤ DocumentChunker.nextStartIdx start ns) ∧
    (∀ (cfg : ChunkConfig) (meta : Metadata),
      DocumentChunker.chunk_fixed_size cfg "   " meta = []) ∧
    DocumentChunker.chunk_fixed_size cfgC6 "word" [] =
      [{ id := "chunk_0", text := "word", startIdx := some 0, endIdx := some 1,
         token_count := 1, metadata := [] }] :=
  ⟨DocumentChunker.succ_le_nextStartIdx, chunk_fixed_eval_whitespace, chunk_fixed_eval_word⟩

end RagCore
